import Mathlib

/-!
Shallow embedding of `src/bronzebeard/asm_v3.py`, a RISC-V (RV32I)
assembler: instruction encoders, register resolution, the hi/lo
relocation helpers, the lexer/parser front end, and the five resolution
passes (aligns, labels, immediates, relocations, final assembly).

Conventions of the embedding:
* Python unbounded `int` is `Int`; values known non-negative are `Nat`.
* Byte strings are `List Nat` (each entry a byte value).
* A Python function that can raise is `Except AsmError _`; each
  `AsmError` constructor names the Python exception (or its role) that
  the source raises at the corresponding point.
* Python's `x & (2^k - 1)`, `x & 2^k`, `x >> k` on possibly-negative
  ints are modelled with `Int.emod`/`Int.fdiv` (two's-complement
  semantics on unbounded integers); `x // y` is `Int.fdiv`.
-/

/-- Python exceptions (or exception roles) raised by the source. -/
inductive AsmError where
  /-- `ValueError` from `resolve_register` (bad name, unparseable, or out of range). -/
  | invalidRegister
  /-- `ValueError` from an encoder: immediate outside its signed range. -/
  | immediateRange
  /-- `ValueError` from an encoder: branch/jump immediate not a multiple of 2. -/
  | immediateParity
  /-- `struct.error` from `struct.pack` on an out-of-range value. -/
  | structError
  /-- `KeyError` from a failed label-table lookup. -/
  | keyError
  /-- `AttributeError`: reading a namedtuple field that does not exist, or assigning to one. -/
  | attributeError
  /-- `TypeError`: calling a function with the wrong arity, or `bytes()` on non-int fields. -/
  | typeError
  /-- `IndexError`: subscripting a too-short token list. -/
  | indexError
  /-- `ValueError` from `bytes()` over an out-of-range int field. -/
  | valueError
  /-- `NameError`/failure of `eval` on an expression the model does not evaluate. -/
  | nameError
  /-- `SystemExit` raised for an unrecognized line. -/
  | systemExit
  /-- `ZeroDivisionError` from `position % alignment` with alignment 0. -/
  | zeroDivisionError
deriving DecidableEq, Repr

/-- A register operand as passed to the encoders: a name string or a plain int. -/
inductive RegArg where
  | str (s : String)
  | num (n : Int)
deriving DecidableEq, Repr

/-- The `REGISTERS` table: canonical names and ABI aliases (source lines 8-41). -/
def REGISTERS : List (String × Nat) :=
  [("x0", 0), ("zero", 0), ("x1", 1), ("ra", 1), ("x2", 2), ("sp", 2),
   ("x3", 3), ("gp", 3), ("x4", 4), ("tp", 4), ("x5", 5), ("t0", 5),
   ("x6", 6), ("t1", 6), ("x7", 7), ("t2", 7), ("x8", 8), ("s0", 8),
   ("fp", 8), ("x9", 9), ("s1", 9), ("x10", 10), ("a0", 10),
   ("x11", 11), ("a1", 11), ("x12", 12), ("a2", 12), ("x13", 13),
   ("a3", 13), ("x14", 14), ("a4", 14), ("x15", 15), ("a5", 15),
   ("x16", 16), ("a6", 16), ("x17", 17), ("a7", 17), ("x18", 18),
   ("s2", 18), ("x19", 19), ("s3", 19), ("x20", 20), ("s4", 20),
   ("x21", 21), ("s5", 21), ("x22", 22), ("s6", 22), ("x23", 23),
   ("s7", 23), ("x24", 24), ("s8", 24), ("x25", 25), ("s9", 25),
   ("x26", 26), ("s10", 26), ("x27", 27), ("s11", 27), ("x28", 28),
   ("t3", 28), ("x29", 29), ("t4", 29), ("x30", 30), ("t5", 30),
   ("x31", 31), ("t6", 31)]

/-- Exact-match lookup in an association list (Python `dict` lookup). -/
def lookupStr {α : Type} : List (String × α) → String → Option α
  | [], _ => none
  | (k, v) :: rest, s => if k = s then some v else lookupStr rest s

/-- Is `c` an ASCII whitespace character (Python `\s`: space, tab, LF, VT, FF, CR)? -/
def isSpaceChar (c : Char) : Bool :=
  c.toNat = 32 || c.toNat = 9 || c.toNat = 10 || c.toNat = 11 ||
  c.toNat = 12 || c.toNat = 13

/-- Decimal digit value of a character, if it is one. -/
def digitVal (c : Char) : Option Nat :=
  if 48 ≤ c.toNat ∧ c.toNat ≤ 57 then some (c.toNat - 48) else none

/-- Accumulate decimal digits; `none` as soon as a non-digit appears. -/
def parseDigits (cs : List Char) : Option Nat :=
  cs.foldl
    (fun acc c =>
      match acc, digitVal c with
      | some n, some d => some (n * 10 + d)
      | _, _ => none)
    (some 0)

/-- Model of Python's built-in `int(str)` on decimal literals: optional
surrounding whitespace, an optional single `+`/`-` sign, then one or
more digits.  (Underscore digit separators are not modelled; no claim
involves them.)  `none` models the `ValueError` that `int` raises. -/
def pyParseInt (s : String) : Option Int :=
  let cs := ((s.data.dropWhile isSpaceChar).reverse.dropWhile isSpaceChar).reverse
  let signAndDigits : Int × List Char :=
    match cs with
    | c :: rest =>
      if c.toNat = 43 then (1, rest)
      else if c.toNat = 45 then (-1, rest)
      else (1, cs)
    | [] => (1, [])
  match signAndDigits with
  | (sign, digits) =>
    if digits = [] then none
    else match parseDigits digits with
      | some n => some (sign * (n : Int))
      | none => none

/-- Python `int(x)` where `x` is already an int or a string. -/
def pyIntOf : RegArg → Option Int
  | .num n => some n
  | .str s => pyParseInt s

/-- `resolve_register` (source lines 44-59): map a name through
`REGISTERS` if present, convert to int, and range-check 0..31.  Both
`raise ValueError` sites are modelled as `.invalidRegister`. -/
def resolve_register (reg : RegArg) : Except AsmError Int :=
  let reg' : RegArg :=
    match reg with
    | .str s =>
      match lookupStr REGISTERS s with
      | some n => .num (n : Int)
      | none => .str s
    | r => r
  match pyIntOf reg' with
  | none => .error .invalidRegister
  | some n => if n < 0 ∨ 31 < n then .error .invalidRegister else .ok n

/-- `ctypes.c_uint32(x).value`: the int reduced modulo 2^32 (non-negative). -/
def c_uint32 (x : Int) : Nat := (x % (2 ^ 32 : Int)).toNat

/-- `struct.pack('<I', code)`: four little-endian bytes; `struct.error`
for a value that does not fit in 32 bits. -/
def pack32 (code : Nat) : Except AsmError (List Nat) :=
  if code < 2 ^ 32 then
    .ok [code % 256, code / 2 ^ 8 % 256, code / 2 ^ 16 % 256, code / 2 ^ 24 % 256]
  else
    .error .structError

/-- `r_type` (source lines 62-75). -/
def r_type (rd rs1 rs2 : RegArg) (opcode funct3 funct7 : Nat) :
    Except AsmError (List Nat) :=
  match resolve_register rd with
  | .error e => .error e
  | .ok rd =>
    match resolve_register rs1 with
    | .error e => .error e
    | .ok rs1 =>
      match resolve_register rs2 with
      | .error e => .error e
      | .ok rs2 =>
        pack32 (opcode ||| rd.toNat <<< 7 ||| funct3 <<< 12 |||
          rs1.toNat <<< 15 ||| rs2.toNat <<< 20 ||| funct7 <<< 25)

/-- `i_type` (source lines 78-94): 12-bit signed immediate at bits 20-31. -/
def i_type (rd rs1 : RegArg) (imm : Int) (opcode funct3 : Nat) :
    Except AsmError (List Nat) :=
  match resolve_register rd with
  | .error e => .error e
  | .ok rd =>
    match resolve_register rs1 with
    | .error e => .error e
    | .ok rs1 =>
      if imm < -2048 ∨ 2047 < imm then .error .immediateRange
      else
        let immN := c_uint32 imm &&& 4095
        pack32 (opcode ||| rd.toNat <<< 7 ||| funct3 <<< 12 |||
          rs1.toNat <<< 15 ||| immN <<< 20)

/-- `s_type` (source lines 97-117): 12-bit signed immediate split into
bits 7-11 and 25-31. -/
def s_type (rs1 rs2 : RegArg) (imm : Int) (opcode funct3 : Nat) :
    Except AsmError (List Nat) :=
  match resolve_register rs1 with
  | .error e => .error e
  | .ok rs1 =>
    match resolve_register rs2 with
    | .error e => .error e
    | .ok rs2 =>
      if imm < -2048 ∨ 2047 < imm then .error .immediateRange
      else
        let immN := c_uint32 imm &&& 4095
        let imm_11_5 := (immN >>> 5) &&& 127
        let imm_4_0 := immN &&& 31
        pack32 (opcode ||| imm_4_0 <<< 7 ||| funct3 <<< 12 |||
          rs1.toNat <<< 15 ||| rs2.toNat <<< 20 ||| imm_11_5 <<< 25)

/-- `b_type` (source lines 120-147): even immediate in [-4096, 4095],
floor-divided by 2 (Python `//`) before field extraction. -/
def b_type (rs1 rs2 : RegArg) (imm : Int) (opcode funct3 : Nat) :
    Except AsmError (List Nat) :=
  match resolve_register rs1 with
  | .error e => .error e
  | .ok rs1 =>
    match resolve_register rs2 with
    | .error e => .error e
    | .ok rs2 =>
      if imm < -4096 ∨ 4095 < imm then .error .immediateRange
      else if imm % 2 = 1 then .error .immediateParity
      else
        let immH := imm.fdiv 2
        let immN := c_uint32 immH &&& 4095
        let imm_12 := (immN >>> 11) &&& 1
        let imm_11 := (immN >>> 10) &&& 1
        let imm_10_5 := (immN >>> 4) &&& 63
        let imm_4_1 := immN &&& 15
        pack32 (opcode ||| imm_11 <<< 7 ||| imm_4_1 <<< 8 ||| funct3 <<< 12 |||
          rs1.toNat <<< 15 ||| rs2.toNat <<< 20 ||| imm_10_5 <<< 25 |||
          imm_12 <<< 31)

/-- `u_type` (source lines 150-163): 20-bit signed immediate at bits 12-31. -/
def u_type (rd : RegArg) (imm : Int) (opcode : Nat) :
    Except AsmError (List Nat) :=
  match resolve_register rd with
  | .error e => .error e
  | .ok rd =>
    if imm < -524288 ∨ 524287 < imm then .error .immediateRange
    else
      let immN := c_uint32 imm &&& (2 ^ 20 - 1)
      pack32 (opcode ||| rd.toNat <<< 7 ||| immN <<< 12)

/-- `j_type` (source lines 166-190): even immediate in [-1048576, 1048575],
floor-divided by 2 before field extraction. -/
def j_type (rd : RegArg) (imm : Int) (opcode : Nat) :
    Except AsmError (List Nat) :=
  match resolve_register rd with
  | .error e => .error e
  | .ok rd =>
    if imm < -1048576 ∨ 1048575 < imm then .error .immediateRange
    else if imm % 2 = 1 then .error .immediateParity
    else
      let immH := imm.fdiv 2
      let immN := c_uint32 immH &&& (2 ^ 20 - 1)
      let imm_20 := (immN >>> 19) &&& 1
      let imm_19_12 := (immN >>> 11) &&& 255
      let imm_11 := (immN >>> 10) &&& 1
      let imm_10_1 := immN &&& 1023
      pack32 (opcode ||| rd.toNat <<< 7 ||| imm_19_12 <<< 12 |||
        imm_11 <<< 20 ||| imm_10_1 <<< 21 ||| imm_20 <<< 31)

/-- Python `x & (2^k - 1)` on an unbounded (possibly negative) int:
the low `k` bits, i.e. `x mod 2^k`. -/
def pyMaskLow (x : Int) (k : Nat) : Int := x % (2 ^ k : Int)

/-- Python `x & 2^k` on an unbounded (possibly negative) int: bit `k`
of the two's-complement representation, scaled back by `2^k`. -/
def pyMaskBit (x : Int) (k : Nat) : Int := (x.fdiv (2 ^ k)) % 2 * 2 ^ k

/-- Python `x >> k`: arithmetic (floor) shift. -/
def pyShiftRight (x : Int) (k : Nat) : Int := x.fdiv (2 ^ k)

/-- `sign_extend` (source lines 325-327):
`(value & (sign_bit - 1)) - (value & sign_bit)` with `sign_bit = 1 << (bits-1)`. -/
def sign_extend (value : Int) (bits : Nat) : Int :=
  pyMaskLow value (bits - 1) - pyMaskBit value (bits - 1)

/-- `relocate_hi` (source lines 329-332): add 2^12 when bit 11 is set,
then sign-extend bits [31:12] as a 20-bit value. -/
def relocate_hi (imm : Int) : Int :=
  let imm' := if pyMaskBit imm 11 ≠ 0 then imm + 2 ^ 12 else imm
  sign_extend (pyMaskLow (pyShiftRight imm' 12) 20) 20

/-- `relocate_lo` (source lines 334-335): sign-extend bits [11:0] as a
12-bit value. -/
def relocate_lo (imm : Int) : Int :=
  sign_extend (pyMaskLow imm 12) 12

/-- The immediate of an instruction or pack item (source lines 294-316):
a plain int or one of the symbolic forms.  Field names follow the
namedtuple declarations: `Position(label, value)`, `Offset(label)`,
`Hi(value)`, `Lo(value)` — note that `Position`'s second field and the
`Hi`/`Lo` payload are declared as `value` in the source. -/
inductive Imm where
  | lit (n : Int)
  | Position (label : String) (value : Int)
  | Offset (label : String)
  | Hi (value : Imm)
  | Lo (value : Imm)
deriving DecidableEq, Repr

/-- A program item (source lines 303-312), one constructor per namedtuple. -/
inductive Item where
  | RTypeInstruction (name : String) (rd rs1 rs2 : RegArg)
  | ITypeInstruction (name : String) (rd rs1 : RegArg) (imm : Imm)
  | STypeInstruction (name : String) (rs1 rs2 : RegArg) (imm : Imm)
  | BTypeInstruction (name : String) (rs1 rs2 : RegArg) (imm : Imm)
  | UTypeInstruction (name : String) (rd : RegArg) (imm : Imm)
  | JTypeInstruction (name : String) (rd : RegArg) (imm : Imm)
  | Label (name : String)
  | Align (alignment : Nat)
  | Blob (data : List Nat)
  | Pack (fmt : String) (imm : Imm)
deriving DecidableEq, Repr

/-- Python `len(item)` on a namedtuple: the number of fields of its
class, NOT the number of bytes the item assembles to.  The source's
`resolve_labels` and `resolve_immediates` advance their position
counter by this quantity (source lines 442 and 481). -/
def pyLen : Item → Nat
  | .RTypeInstruction .. => 4
  | .ITypeInstruction .. => 4
  | .STypeInstruction .. => 4
  | .BTypeInstruction .. => 4
  | .UTypeInstruction .. => 3
  | .JTypeInstruction .. => 3
  | .Label _ => 1
  | .Align _ => 1
  | .Blob _ => 1
  | .Pack .. => 2

/-- The `imm` field of the item classes listed in the `immediates`
lists of `resolve_immediates`/`resolve_relocations` (source lines
451-458 and 489-496); `none` for the other classes (note
`RTypeInstruction` is not listed). -/
def getImm : Item → Option Imm
  | .ITypeInstruction _ _ _ imm => some imm
  | .STypeInstruction _ _ _ imm => some imm
  | .BTypeInstruction _ _ _ imm => some imm
  | .UTypeInstruction _ _ imm => some imm
  | .JTypeInstruction _ _ imm => some imm
  | .Pack _ imm => some imm
  | _ => none

/-- Model of `struct.calcsize` (Python stdlib, external to the repo)
for format strings without repeat counts: an optional byte-order
prefix followed by format characters with their standard sizes.
Unrecognized characters count 0 (no claim exercises them). -/
def fmtCharSize (c : Char) : Nat :=
  let n := c.toNat
  if n = 120 ∨ n = 99 ∨ n = 98 ∨ n = 66 ∨ n = 115 ∨ n = 112 then 1
  else if n = 104 ∨ n = 72 ∨ n = 101 then 2
  else if n = 105 ∨ n = 73 ∨ n = 108 ∨ n = 76 ∨ n = 102 then 4
  else if n = 113 ∨ n = 81 ∨ n = 100 then 8
  else 0

/-- `struct.calcsize` on a format string (see `fmtCharSize`). -/
def calcsize (fmt : String) : Nat :=
  let cs :=
    match fmt.data with
    | c :: rest =>
      if c.toNat = 60 ∨ c.toNat = 62 ∨ c.toNat = 61 ∨ c.toNat = 33 ∨ c.toNat = 64
      then rest else fmt.data
    | [] => []
  (cs.map fmtCharSize).sum

/-- Is `c` one of the token delimiters of the lexer's
`re.split(r'[\s,()]+', line)`: whitespace, comma, or parenthesis? -/
def isDelim (c : Char) : Bool :=
  isSpaceChar c || c.toNat = 44 || c.toNat = 40 || c.toNat = 41

/-- Split a character list at every occurrence of the character with
code point `d` (used with `d = 10` to model `str.splitlines` for
LF-separated text). -/
def splitOnChar (d : Nat) (cs : List Char) : List (List Char) :=
  cs.foldr
    (fun c acc =>
      if c.toNat = d then [] :: acc
      else
        match acc with
        | h :: t => (c :: h) :: t
        | [] => [[c]])
    [[]]

/-- `re.sub(r'#.*?$', '', line)` on one line: drop everything from the
first `#` (code point 35) to the end of the line. -/
def stripComment (cs : List Char) : List Char :=
  cs.takeWhile (fun c => c.toNat ≠ 35)

/-- Python `str.strip()`: remove leading and trailing whitespace. -/
def pyStrip (cs : List Char) : List Char :=
  ((cs.dropWhile isSpaceChar).reverse.dropWhile isSpaceChar).reverse

/-- Split one line into tokens at delimiter runs, dropping empty
tokens (the source's `re.split` followed by the `''`-removal loop). -/
def tokenize (cs : List Char) : List String :=
  ((cs.foldr
      (fun c acc =>
        if isDelim c then [] :: acc
        else
          match acc with
          | h :: t => (c :: h) :: t
          | [] => [[c]])
      [[]]).filter (· ≠ [])).map (fun l => String.mk l)

/-- `lex_assembly` (source lines 337-358): strip comments, split into
lines, strip whitespace, drop empty lines, split each line into
tokens.  Line splitting is modelled on LF only (the inputs of interest
contain no other line separators). -/
def lex_assembly (assembly : String) : List (List String) :=
  ((((splitOnChar 10 assembly.data).map stripComment).map pyStrip).filter
    (· ≠ [])).map tokenize

/-- Python `str.lower()` for ASCII letters. -/
def pyLower (s : String) : String :=
  String.mk (s.data.map (fun c =>
    if 65 ≤ c.toNat ∧ c.toNat ≤ 90 then Char.ofNat (c.toNat + 32) else c))

/-- Python `str.rstrip(':')`: drop all trailing colons (code point 58). -/
def rstripColon (s : String) : String :=
  String.mk ((s.data.reverse.dropWhile (fun c => c.toNat = 58)).reverse)

/-- Does the string end with a colon (Python `str.endswith(':')`)? -/
def endsWithColon (s : String) : Bool :=
  match s.data.getLast? with
  | some c => c.toNat = 58
  | none => false

/-- Python `str.encode()` for ASCII content: the code points as bytes. -/
def pyEncode (s : String) : List Nat := s.data.map Char.toNat

/-- Model of the built-in `eval` as used by the variable-assignment
branch of `parse_assembly` (source line 391, called with no context):
only integer literals evaluate; anything else is an error, as a bare
name would raise `NameError` there.  No claim exercises richer
expressions. -/
def pyEvalInt (s : String) : Except AsmError Int :=
  match pyParseInt s with
  | some n => .ok n
  | none => .error .nameError

/-- Insert-or-overwrite into an association list, preserving insertion
order (Python `dict` assignment). -/
def dictInsert {α : Type} : List (String × α) → String → α → List (String × α)
  | [], k, v => [(k, v)]
  | (k2, v2) :: rest, k, v =>
    if k2 = k then (k2, v) :: rest else (k2, v2) :: dictInsert rest k v

/-- The keys of `R_TYPE_INSTRUCTIONS` (source lines 231-245). -/
def R_TYPE_MNEMONICS : List String :=
  ["slli", "srli", "srai", "add", "sub", "sll", "slt", "sltu", "xor",
   "srl", "sra", "or", "and"]

/-- One iteration of the `parse_assembly` loop (source lines 380-406)
on a token line: returns an optional produced item and the updated
variable context, or the error Python raises there.

Faithful to the source's branch order and defects:
* a single token ending in `:` is a label (trailing colons stripped);
* `name = expr` evaluates `expr` with `eval` (see `pyEvalInt`) and
  binds `name`;
* `blob` takes its next token's encoded bytes (`IndexError` when
  missing);
* `pack` calls `parse_immediate(item[2:])`, but `parse_immediate` is
  declared with two parameters `(imm, context)`, so the call raises
  `TypeError` (source lines 361, 400) — after `item[1]` is read;
* an R-type mnemonic falls into a branch whose body is `pass` (source
  lines 403-404), producing nothing;
* anything else raises `SystemExit`. -/
def parseLine (item : List String) (ctx : List (String × Int)) :
    Except AsmError (Option Item × List (String × Int)) :=
  if item.length = 1 ∧ endsWithColon (item.headD "") then
    .ok (some (.Label (rstripColon (item.headD ""))), ctx)
  else if 3 ≤ item.length ∧ item.getD 1 "" = "=" then
    match pyEvalInt (" ".intercalate (item.drop 2)) with
    | .ok v => .ok (none, dictInsert ctx (item.headD "") v)
    | .error e => .error e
  else
    match item with
    | [] => .error .indexError
    | tok0 :: restTok =>
      if pyLower tok0 = "blob" then
        match restTok with
        | [] => .error .indexError
        | d :: _ => .ok (some (.Blob (pyEncode d)), ctx)
      else if pyLower tok0 = "pack" then
        match restTok with
        | [] => .error .indexError
        | _ :: _ => .error .typeError
      else if R_TYPE_MNEMONICS.contains (pyLower tok0) then
        .ok (none, ctx)
      else .error .systemExit

/-- The `parse_assembly` loop over all token lines, threading the
variable context and accumulating produced items in order. -/
def parseAsmGo : List (List String) → List (String × Int) → List Item →
    Except AsmError (List Item)
  | [], _, acc => .ok acc.reverse
  | it :: rest, ctx, acc =>
    match parseLine it ctx with
    | .error e => .error e
    | .ok (none, ctx2) => parseAsmGo rest ctx2 acc
    | .ok (some itm, ctx2) => parseAsmGo rest ctx2 (itm :: acc)

/-- `parse_assembly` (source lines 360-408). -/
def parse_assembly (items : List (List String)) : Except AsmError (List Item) :=
  parseAsmGo items [] []

/-- The `resolve_aligns` loop (source lines 410-431), with the running
byte position as an argument.  `Align(n)` becomes a zero blob of
`n - position % n` bytes, or disappears when that padding equals `n`;
`Blob` advances by its data length, `Pack` by `calcsize(fmt)`, and
every other item — including `Label` — falls into the `else` branch
and advances the position by 4.  `Align(0)` raises
`ZeroDivisionError` in `position % alignment`. -/
def resolveAlignsGo : List Item → Nat → Except AsmError (List Item)
  | [], _ => .ok []
  | item :: rest, position =>
    match item with
    | .Align a =>
      if a = 0 then .error .zeroDivisionError
      else
        let padding := a - position % a
        if padding = a then resolveAlignsGo rest position
        else
          match resolveAlignsGo rest (position + padding) with
          | .error e => .error e
          | .ok out => .ok (.Blob (List.replicate padding 0) :: out)
    | .Blob data =>
      match resolveAlignsGo rest (position + data.length) with
      | .error e => .error e
      | .ok out => .ok (.Blob data :: out)
    | .Pack fmt imm =>
      match resolveAlignsGo rest (position + calcsize fmt) with
      | .error e => .error e
      | .ok out => .ok (.Pack fmt imm :: out)
    | other =>
      match resolveAlignsGo rest (position + 4) with
      | .error e => .error e
      | .ok out => .ok (other :: out)

/-- `resolve_aligns` (source lines 410-431). -/
def resolve_aligns (program : List Item) : Except AsmError (List Item) :=
  resolveAlignsGo program 0

/-- The `resolve_labels` loop (source lines 433-445).  A `Label` is
consumed and its name recorded at the current position — a duplicate
name silently overwrites the earlier entry (plain dict assignment,
source line 440) — and every other item advances the position by
`len(item)`, the namedtuple's FIELD COUNT (see `pyLen`), not its byte
length. -/
def resolveLabelsGo : List Item → Nat → List (String × Nat) →
    List Item × List (String × Nat)
  | [], _, labels => ([], labels)
  | item :: rest, position, labels =>
    match item with
    | .Label name => resolveLabelsGo rest position (dictInsert labels name position)
    | other =>
      let r := resolveLabelsGo rest (position + pyLen other) labels
      (other :: r.1, r.2)

/-- `resolve_labels` (source lines 433-445). -/
def resolve_labels (program : List Item) : List Item × List (String × Nat) :=
  resolveLabelsGo program 0 []

/-- The `resolve_immediates` loop (source lines 447-484), faithful to
what the source actually executes:

* `Position`: `labels[imm.label]` is read first (`KeyError` when the
  label is absent, source line 465); the next statement reads
  `imm.base` (source line 466), but the `Position` namedtuple's field
  is named `value`, so an `AttributeError` is raised;
* `Offset`: after the label lookup (source line 469), the assignment
  `item.imm = dest - position` (source line 470) raises
  `AttributeError` because namedtuple fields are read-only;
* `Hi`/`Lo`: `item.imm.imm` (source line 472) reads a field named
  `imm` from the wrapper, whose only field is `value`, raising
  `AttributeError` before any lookup;
* a plain int immediate, and any item class not in the `immediates`
  list, pass through; the position advances by `len(item)` (field
  count, see `pyLen`). -/
def resolveImmsGo : List Item → List (String × Nat) → Nat →
    Except AsmError (List Item)
  | [], _, _ => .ok []
  | item :: rest, labels, position =>
    let step : Except AsmError Unit :=
      match getImm item with
      | some (.Position label _) =>
        match lookupStr labels label with
        | none => .error .keyError
        | some _ => .error .attributeError
      | some (.Offset label) =>
        match lookupStr labels label with
        | none => .error .keyError
        | some _ => .error .attributeError
      | some (.Hi _) => .error .attributeError
      | some (.Lo _) => .error .attributeError
      | some (.lit _) => .ok ()
      | none => .ok ()
    match step with
    | .error e => .error e
    | .ok _ =>
      match resolveImmsGo rest labels (position + pyLen item) with
      | .error e => .error e
      | .ok out => .ok (item :: out)

/-- `resolve_immediates` (source lines 447-484). -/
def resolve_immediates (program : List Item) (labels : List (String × Nat)) :
    Except AsmError (List Item) :=
  resolveImmsGo program labels 0

/-- `resolve_relocations` (source lines 486-507).  For an item whose
immediate is `Hi`/`Lo` the source evaluates `item.imm.imm` (source
lines 501, 503); the wrapper's field is named `value`, so this raises
`AttributeError`.  All other items pass through unchanged. -/
def resolve_relocations : List Item → Except AsmError (List Item)
  | [] => .ok []
  | item :: rest =>
    match getImm item with
    | some (.Hi _) => .error .attributeError
    | some (.Lo _) => .error .attributeError
    | _ =>
      match resolve_relocations rest with
      | .error e => .error e
      | .ok out => .ok (item :: out)

/-- Python `bytes(item)` on a namedtuple: the namedtuple is a sequence
of its fields, so `bytes()` succeeds only when every field is an int
in 0..255.  Every item class has a string (or bytes) field except
`Align`, whose single int field yields one byte; everything else
raises `TypeError` (and an `Align` of 256 or more, `ValueError`). -/
def pyBytesItem : Item → Except AsmError (List Nat)
  | .Align a => if a < 256 then .ok [a] else .error .valueError
  | _ => .error .typeError

/-- `assemble` (source lines 509-515): concatenate `bytes(item)` over
the program. -/
def assemble : List Item → Except AsmError (List Nat)
  | [] => .ok []
  | item :: rest =>
    match pyBytesItem item with
    | .error e => .error e
    | .ok b =>
      match assemble rest with
      | .error e => .error e
      | .ok r => .ok (b ++ r)

/-- The full documented pipeline (source lines 318-323): lex, parse,
then passes 1-5 in order.  (The module's `__main__` block stops after
parsing and pretty-prints; this composition follows the pass list the
source documents and the spec describes.) -/
def full_pipeline (s : String) : Except AsmError (List Nat) :=
  match parse_assembly (lex_assembly s) with
  | .error e => .error e
  | .ok prog =>
    match resolve_aligns prog with
    | .error e => .error e
    | .ok prog1 =>
      match resolve_labels prog1 with
      | (prog2, labels) =>
        match resolve_immediates prog2 labels with
        | .error e => .error e
        | .ok prog3 =>
          match resolve_relocations prog3 with
          | .error e => .error e
          | .ok prog4 => assemble prog4

/-- The 32-bit word represented by a 4-byte little-endian byte list. -/
def wordOf : List Nat → Nat
  | [b0, b1, b2, b3] => b0 + b1 * 2 ^ 8 + b2 * 2 ^ 16 + b3 * 2 ^ 24
  | _ => 0

/-- Reassemble the branch immediate stored in a B-type instruction
word: fields imm[12] (bit 31), imm[11] (bit 7), imm[10:5] (bits
25-30), imm[4:1] (bits 8-11) of the halved immediate. -/
def decodeBImm (w : Nat) : Nat :=
  w / 2 ^ 31 % 2 * 2 ^ 11 + w / 2 ^ 7 % 2 * 2 ^ 10 +
  w / 2 ^ 25 % 64 * 2 ^ 4 + w / 2 ^ 8 % 16

/-! Helper lemmas about the arithmetic building blocks. -/

/-- Or-ing a low part below `2^k` with a value shifted left by `k` is
plain addition (the encoders build words from disjoint fields). -/
theorem lor_shl_eq_add {x : Nat} (y k : Nat) (h : x < 2 ^ k) :
    x ||| y <<< k = 2 ^ k * y + x := by
  rw [Nat.shiftLeft_eq, Nat.lor_comm, Nat.mul_comm y (2 ^ k),
    ← Nat.mul_add_lt_is_or h y]

theorem and_4095_eq (n : Nat) : n &&& 4095 = n % 4096 := by
  have := Nat.and_pow_two_sub_one_eq_mod n 12
  norm_num at this
  exact this

theorem and_1_eq (n : Nat) : n &&& 1 = n % 2 :=
  Nat.and_one_is_mod n

theorem and_15_eq (n : Nat) : n &&& 15 = n % 16 := by
  have := Nat.and_pow_two_sub_one_eq_mod n 4
  norm_num at this
  exact this

theorem and_63_eq (n : Nat) : n &&& 63 = n % 64 := by
  have := Nat.and_pow_two_sub_one_eq_mod n 6
  norm_num at this
  exact this

theorem and_two_pow_twenty_sub_one_eq (n : Nat) : n &&& (2 ^ 20 - 1) = n % 2 ^ 20 :=
  Nat.and_pow_two_sub_one_eq_mod n 20

theorem c_uint32_mod_4096 (x : Int) : c_uint32 x % 4096 = (x % 4096).toNat := by
  unfold c_uint32
  omega

theorem c_uint32_mod_two_pow_twenty (x : Int) :
    c_uint32 x % 2 ^ 20 = (x % 2 ^ 20).toNat := by
  unfold c_uint32
  omega

/-- `struct.pack('<I', _)` succeeds below `2^32` and its little-endian
bytes reassemble to the packed word. -/
theorem pack32_ok (code : Nat) (h : code < 2 ^ 32) :
    ∃ bs, pack32 code = .ok bs ∧ wordOf bs = code := by
  refine ⟨_, by rw [pack32, if_pos h], ?_⟩
  show wordOf [code % 256, code / 2 ^ 8 % 256, code / 2 ^ 16 % 256,
    code / 2 ^ 24 % 256] = code
  rw [wordOf]
  omega

/-- A plain in-range int register resolves to itself. -/
theorem resolve_register_num (n : Int) (h0 : 0 ≤ n) (h1 : n ≤ 31) :
    resolve_register (.num n) = .ok n := by
  simp only [resolve_register, pyIntOf]
  rw [if_neg (by omega)]

/-- Claim C1: the spec's end-to-end example.  Running the whole
documented pipeline on the single-line program `add x1, x2, x3` yields
the EMPTY byte string — `parse_assembly`'s branch for R-type mnemonics
is a no-op `pass` (source lines 403-404), so the instruction never
reaches the encoders — even though the R-type encoder itself, applied
to these operands with ADD's opcode/funct constants, produces exactly
the bytes `B3 00 31 00` that the claim expects from the pipeline. -/
theorem pipeline_drops_rtype_instruction :
    full_pipeline "add x1, x2, x3" = .ok [] ∧
    r_type (.str "x1") (.str "x2") (.str "x3") 51 0 0 =
      .ok [0xB3, 0x00, 0x31, 0x00] := by
  exact ⟨rfl, rfl⟩

/-- Claim C3: `resolve_immediates` cannot replace a symbolic immediate.
On an I-type item carrying `Position("x", 4)` with `x` at address 100
— where the claim expects the immediate to become 104 — the pass
raises `AttributeError`, because the source reads `imm.base` (line
466) while the `Position` namedtuple's field is named `value`, and
namedtuple fields cannot be assigned either. -/
theorem resolve_immediates_attribute_error :
    resolve_immediates
      [.ITypeInstruction "addi" (.str "x1") (.str "x0") (.Position "x" 4)]
      [("x", 100)] = .error .attributeError := by
  rfl

/-- Claim C4: `resolve_labels` on `[Blob(10 bytes); Label "x"; Label "x"]`
returns normally with the label recorded at position 1 — the Blob
advanced the position by `len(Blob(...)) = 1`, its namedtuple field
count, not by its 10-byte length — and the duplicate declaration of
`x` silently overwrote the first entry instead of raising a
`DuplicateLabel` error. -/
theorem resolve_labels_duplicate_silently_overwritten :
    resolve_labels [.Blob (List.replicate 10 0), .Label "x", .Label "x"] =
      ([.Blob (List.replicate 10 0)], [("x", 1)]) := by
  rfl

/-- Claim C5: in `resolve_aligns` a `Label` advances the position by 4
(it falls into the catch-all `else` branch, source lines 427-429), so
`[Label "x"; Align 8]` inserts 4 padding bytes, whereas under the
claim — labels emit no bytes — position 0 is already 8-aligned and the
`Align` would be dropped. -/
theorem resolve_aligns_label_advances_four :
    resolve_aligns [.Label "x", .Align 8] =
      .ok [.Label "x", .Blob (List.replicate 4 0)] := by
  rfl

/-- `Int.fdiv` by a positive power of two is Euclidean division. -/
theorem fdiv_pow_eq (x : Int) (k : Nat) : x.fdiv (2 ^ k) = x / 2 ^ k :=
  Int.fdiv_eq_ediv x (by positivity)

/-- Claim C2: hi/lo relocation round-trips.  For every 32-bit value
`v`, `relocate_hi v * 2^12 + relocate_lo v` equals `v` modulo 2^32 —
including when bit 11 of `v` is set, which triggers the `+ 2^12`
correction inside `relocate_hi`. -/
theorem relocate_hi_lo_round_trip (v : Int) (h0 : 0 ≤ v) (h1 : v < 2 ^ 32) :
    (relocate_hi v * 2 ^ 12 + relocate_lo v) % (2 ^ 32 : Int) = v := by
  simp only [relocate_hi, relocate_lo, sign_extend, pyMaskLow, pyMaskBit,
    pyShiftRight, fdiv_pow_eq]
  norm_num
  split_ifs with h
  · omega
  · omega

/-- Witness for C2 at `v = 0x12345FFF`, whose low 12 bits have bit 11
set (the corrected case). -/
theorem relocate_hi_lo_round_trip_witness :
    (0 : Int) ≤ 0x12345FFF ∧ (0x12345FFF : Int) < 2 ^ 32 ∧
    (relocate_hi 0x12345FFF * 2 ^ 12 + relocate_lo 0x12345FFF) % (2 ^ 32 : Int) =
      0x12345FFF :=
  ⟨by decide, by decide,
    relocate_hi_lo_round_trip 0x12345FFF (by decide) (by decide)⟩

/-- `relocate_hi` always lands in the signed 20-bit range. -/
theorem relocate_hi_bounds (v : Int) :
    -524288 ≤ relocate_hi v ∧ relocate_hi v ≤ 524287 := by
  simp only [relocate_hi, sign_extend, pyMaskLow, pyMaskBit, pyShiftRight,
    fdiv_pow_eq]
  norm_num
  split_ifs with h
  · omega
  · omega

/-- `relocate_lo` always lands in the signed 12-bit range. -/
theorem relocate_lo_bounds (v : Int) :
    -2048 ≤ relocate_lo v ∧ relocate_lo v ≤ 2047 := by
  simp only [relocate_lo, sign_extend, pyMaskLow, pyMaskBit, pyShiftRight,
    fdiv_pow_eq]
  norm_num
  omega

/-- A signed-20-bit immediate always passes `u_type`'s range check
(shown for LUI's opcode and register x1). -/
theorem u_type_ok_of_range (imm : Int) (h1 : -524288 ≤ imm) (h2 : imm ≤ 524287) :
    ∃ bs, u_type (.num 1) imm 55 = .ok bs := by
  have hr := resolve_register_num 1 (by norm_num) (by norm_num)
  simp only [u_type, hr]
  rw [if_neg (by omega)]
  have hN : c_uint32 imm &&& (2 ^ 20 - 1) < 2 ^ 20 := by
    rw [and_two_pow_twenty_sub_one_eq]
    omega
  have h55 : (55 ||| (1 : Int).toNat <<< 7) = 183 := by decide
  rw [h55, lor_shl_eq_add _ 12 (by norm_num)]
  simp only [pack32]
  split_ifs with hw
  · exact ⟨_, rfl⟩
  · exact (hw (by omega)).elim

/-- A signed-12-bit immediate always passes `i_type`'s range check
(shown for ADDI's opcode/funct3). -/
theorem i_type_ok_of_range (imm : Int) (h1 : -2048 ≤ imm) (h2 : imm ≤ 2047) :
    ∃ bs, i_type (.num 1) (.num 0) imm 19 0 = .ok bs := by
  have hr1 := resolve_register_num 1 (by norm_num) (by norm_num)
  have hr0 := resolve_register_num 0 (by norm_num) (by norm_num)
  simp only [i_type, hr1, hr0]
  rw [if_neg (by omega)]
  have hN : c_uint32 imm &&& 4095 < 4096 := by
    rw [and_4095_eq]
    omega
  have hc : (19 ||| (1 : Int).toNat <<< 7 ||| 0 <<< 12 ||| (0 : Int).toNat <<< 15) = 147 := by
    decide
  rw [hc, lor_shl_eq_add _ 20 (by norm_num)]
  simp only [pack32]
  split_ifs with hw
  · exact ⟨_, rfl⟩
  · exact (hw (by omega)).elim

/-- A signed-12-bit immediate always passes `s_type`'s range check
(shown for SW's opcode/funct3). -/
theorem s_type_ok_of_range (imm : Int) (h1 : -2048 ≤ imm) (h2 : imm ≤ 2047) :
    ∃ bs, s_type (.num 1) (.num 2) imm 35 0 = .ok bs := by
  have hr1 := resolve_register_num 1 (by norm_num) (by norm_num)
  have hr2 := resolve_register_num 2 (by norm_num) (by norm_num)
  simp only [s_type, hr1, hr2]
  rw [if_neg (by omega)]
  have ha : c_uint32 imm &&& 4095 &&& 31 ≤ 31 := Nat.and_le_right
  have hb : (c_uint32 imm &&& 4095) >>> 5 &&& 127 ≤ 127 := Nat.and_le_right
  rw [lor_shl_eq_add _ 7 (by norm_num)]
  rw [lor_shl_eq_add _ 12 (by omega)]
  rw [lor_shl_eq_add _ 15 (by omega)]
  rw [lor_shl_eq_add _ 20 (by omega)]
  rw [lor_shl_eq_add _ 25 (by omega)]
  simp only [pack32]
  split_ifs with hw
  · exact ⟨_, rfl⟩
  · exact (hw (by omega)).elim

/-- Claim C9: for EVERY integer `v` — unbounded, positive or negative —
`relocate_hi v` lies in the signed 20-bit range [-524288, 524287] and
`relocate_lo v` in the signed 12-bit range [-2048, 2047], so feeding
the relocated values to the U-type encoder (resp. the I- and S-type
encoders) can never produce a range error. -/
theorem relocate_results_within_encoder_ranges (v : Int) :
    (-524288 ≤ relocate_hi v ∧ relocate_hi v ≤ 524287) ∧
    (-2048 ≤ relocate_lo v ∧ relocate_lo v ≤ 2047) ∧
    (∃ bs, u_type (.num 1) (relocate_hi v) 55 = .ok bs) ∧
    (∃ bs, i_type (.num 1) (.num 0) (relocate_lo v) 19 0 = .ok bs) ∧
    (∃ bs, s_type (.num 1) (.num 2) (relocate_lo v) 35 0 = .ok bs) :=
  ⟨relocate_hi_bounds v, relocate_lo_bounds v,
    u_type_ok_of_range _ (relocate_hi_bounds v).1 (relocate_hi_bounds v).2,
    i_type_ok_of_range _ (relocate_lo_bounds v).1 (relocate_lo_bounds v).2,
    s_type_ok_of_range _ (relocate_lo_bounds v).1 (relocate_lo_bounds v).2⟩

/-- Every value stored in a `lookupStr`-style table whose entries are
all at most 31 resolves below 31. -/
theorem lookupStr_le31 :
    ∀ (l : List (String × Nat)), (∀ p ∈ l, p.2 ≤ 31) →
      ∀ {s : String} {n : Nat}, lookupStr l s = some n → n ≤ 31 := by
  intro l hl
  induction l with
  | nil => intro s n h; simp [lookupStr] at h
  | cons hd tl ih =>
    intro s n h
    obtain ⟨k, v⟩ := hd
    rw [lookupStr] at h
    split_ifs at h with hk
    · obtain rfl : v = n := by injection h
      exact hl (k, v) (by simp)
    · exact ih (fun p hp => hl p (by simp [hp])) h

/-- Every index in the `REGISTERS` table is at most 31. -/
theorem registers_le31 : ∀ p ∈ REGISTERS, p.2 ≤ 31 := by decide

/-- Claim C8: `resolve_register` on a string token (1) only ever
succeeds with a value in [0, 31]; (2) succeeds on every known
canonical/alias name, with that name's table index; (3) succeeds on a
decimal numeral whose value is in [0, 31]; (4) fails with the
register error when the token is neither a known name nor a parseable
integer; and (5) fails with the register error when the parsed
integer lies outside [0, 31]. -/
theorem resolve_register_spec (s : String) :
    (∀ n : Int, resolve_register (.str s) = .ok n → 0 ≤ n ∧ n ≤ 31) ∧
    (∀ n : Nat, lookupStr REGISTERS s = some n →
      resolve_register (.str s) = .ok (n : Int)) ∧
    (lookupStr REGISTERS s = none → ∀ n : Int, pyParseInt s = some n →
      0 ≤ n → n ≤ 31 → resolve_register (.str s) = .ok n) ∧
    (lookupStr REGISTERS s = none → pyParseInt s = none →
      resolve_register (.str s) = .error .invalidRegister) ∧
    (lookupStr REGISTERS s = none → ∀ n : Int, pyParseInt s = some n →
      (n < 0 ∨ 31 < n) → resolve_register (.str s) = .error .invalidRegister) := by
  cases hl : lookupStr REGISTERS s with
  | some m =>
    have hm : m ≤ 31 := lookupStr_le31 REGISTERS registers_le31 hl
    have hres : resolve_register (.str s) = .ok (m : Int) := by
      simp only [resolve_register, hl, pyIntOf]
      rw [if_neg (by omega)]
    refine ⟨?_, ?_, ?_, ?_, ?_⟩
    · intro n hn
      rw [hres] at hn
      obtain rfl : (m : Int) = n := by injection hn
      omega
    · intro n hn
      obtain rfl : m = n := by injection hn
      exact hres
    · intro h; simp at h
    · intro h; simp at h
    · intro h; simp at h
  | none =>
    refine ⟨?_, ?_, ?_, ?_, ?_⟩
    · intro n hn
      simp only [resolve_register, hl, pyIntOf] at hn
      cases hp : pyParseInt s with
      | none => simp only [hp] at hn; cases hn
      | some m =>
        simp only [hp] at hn
        split_ifs at hn with hr
        all_goals cases hn
        all_goals omega
    · intro n hn; simp at hn
    · intro _ n hp h0 h31
      simp only [resolve_register, hl, pyIntOf, hp]
      rw [if_neg (by omega)]
    · intro _ hp
      simp only [resolve_register, hl, pyIntOf, hp]
    · intro _ n hp hout
      simp only [resolve_register, hl, pyIntOf, hp]
      rw [if_pos hout]

/-- Witness for C8: an alias name, an in-range numeral, an unknown
token, and an out-of-range numeral. -/
theorem resolve_register_spec_witness :
    resolve_register (.str "t0") = .ok ((5 : Nat) : Int) ∧
    resolve_register (.str "13") = .ok 13 ∧
    resolve_register (.str "q7") = .error .invalidRegister ∧
    resolve_register (.str "32") = .error .invalidRegister :=
  ⟨(resolve_register_spec "t0").2.1 5 (by decide),
    (resolve_register_spec "13").2.2.1 (by decide) 13 (by decide) (by decide) (by decide),
    (resolve_register_spec "q7").2.2.2.1 (by decide) (by decide),
    (resolve_register_spec "32").2.2.2.2 (by decide) 32 (by decide) (Or.inr (by decide))⟩

/-- Claim C7: the I-type encoder succeeds exactly on the signed 12-bit
range; on success the word's top 12 bits (bits 20-31) hold the
immediate masked to 12 bits in two's complement — `imm % 4096` — and
the low 20 bits hold only the opcode/funct3/register fields (shown
for ADDI's opcode/funct3 and arbitrary valid registers). -/
theorem i_type_range_and_imm_field (rd rs1 imm : Int)
    (hrd0 : 0 ≤ rd) (hrd1 : rd ≤ 31) (hrs0 : 0 ≤ rs1) (hrs1 : rs1 ≤ 31) :
    (imm < -2048 ∨ 2047 < imm →
      i_type (.num rd) (.num rs1) imm 19 0 = .error .immediateRange) ∧
    (-2048 ≤ imm → imm ≤ 2047 →
      ∃ bs, i_type (.num rd) (.num rs1) imm 19 0 = .ok bs ∧
        wordOf bs / 2 ^ 20 = (imm % 4096).toNat ∧
        wordOf bs % 2 ^ 20 = 19 + rd.toNat * 2 ^ 7 + rs1.toNat * 2 ^ 15) := by
  have hr1 := resolve_register_num rd hrd0 hrd1
  have hr2 := resolve_register_num rs1 hrs0 hrs1
  constructor
  · intro h
    simp only [i_type, hr1, hr2]
    rw [if_pos h]
  · intro h1 h2
    simp only [i_type, hr1, hr2]
    rw [if_neg (by omega)]
    have hN : c_uint32 imm &&& 4095 = (imm % 4096).toNat := by
      rw [and_4095_eq, c_uint32_mod_4096]
    have hNlt : c_uint32 imm &&& 4095 < 4096 := by rw [hN]; omega
    have hrdle : rd.toNat ≤ 31 := by omega
    have hrsle : rs1.toNat ≤ 31 := by omega
    rw [lor_shl_eq_add _ 7 (by norm_num)]
    rw [lor_shl_eq_add _ 12 (by omega)]
    rw [lor_shl_eq_add _ 15 (by omega)]
    rw [lor_shl_eq_add _ 20 (by omega)]
    simp only [pack32]
    split_ifs with hw
    · refine ⟨_, rfl, ?_, ?_⟩ <;> simp only [wordOf] <;> omega
    · exact (hw (by omega)).elim

/-- Witness for C7 at the boundary immediates 0x7ff (encodes, field
0x7FF), 0x800 (range error), and -1 (field 0xFFF). -/
theorem i_type_range_and_imm_field_witness :
    i_type (.num 1) (.num 2) 2048 19 0 = .error .immediateRange ∧
    (∃ bs, i_type (.num 1) (.num 2) 2047 19 0 = .ok bs ∧
      wordOf bs / 2 ^ 20 = 2047) ∧
    (∃ bs, i_type (.num 1) (.num 2) (-1) 19 0 = .ok bs ∧
      wordOf bs / 2 ^ 20 = 4095) := by
  refine ⟨?_, ?_, ?_⟩
  · exact (i_type_range_and_imm_field 1 2 2048 (by decide) (by decide)
      (by decide) (by decide)).1 (Or.inr (by decide))
  · obtain ⟨bs, h1, h2, -⟩ := (i_type_range_and_imm_field 1 2 2047 (by decide)
      (by decide) (by decide) (by decide)).2 (by decide) (by decide)
    exact ⟨bs, h1, by rw [h2]; decide⟩
  · obtain ⟨bs, h1, h2, -⟩ := (i_type_range_and_imm_field 1 2 (-1) (by decide)
      (by decide) (by decide) (by decide)).2 (by decide) (by decide)
    exact ⟨bs, h1, by rw [h2]; decide⟩

/-- Field extraction from a B-type word built from disjoint fields. -/
theorem decodeB_fields (a b c d s1 s2 : Nat) (ha : a ≤ 1) (hb : b ≤ 15)
    (hc : c ≤ 63) (hd : d ≤ 1) (h1 : s1 ≤ 31) (h2 : s2 ≤ 31) :
    decodeBImm (2 ^ 31 * d + (2 ^ 25 * c + (2 ^ 20 * s2 + (2 ^ 15 * s1 +
      (2 ^ 12 * 0 + (2 ^ 8 * b + (2 ^ 7 * a + 99))))))) =
      2 ^ 11 * d + 2 ^ 10 * a + 2 ^ 4 * c + b := by
  simp only [decodeBImm]
  omega

set_option maxHeartbeats 1000000 in
/-- Claim C6: the B-type encoder accepts exactly the even immediates
in [-4096, 4095] — an out-of-range immediate gives the range error, an
odd in-range immediate gives the parity error — and an accepted
immediate is floor-divided by 2 before its bits are scattered into the
word's branch fields: reassembling those fields recovers
`(imm // 2) mod 4096` (shown for BEQ's opcode/funct3 and arbitrary
valid registers). -/
theorem b_type_accepts_even_in_range (r1 r2 imm : Int)
    (h10 : 0 ≤ r1) (h11 : r1 ≤ 31) (h20 : 0 ≤ r2) (h21 : r2 ≤ 31) :
    (imm < -4096 ∨ 4095 < imm →
      b_type (.num r1) (.num r2) imm 99 0 = .error .immediateRange) ∧
    (-4096 ≤ imm → imm ≤ 4095 → imm % 2 ≠ 0 →
      b_type (.num r1) (.num r2) imm 99 0 = .error .immediateParity) ∧
    (-4096 ≤ imm → imm ≤ 4095 → imm % 2 = 0 →
      ∃ bs, b_type (.num r1) (.num r2) imm 99 0 = .ok bs ∧
        decodeBImm (wordOf bs) = ((imm.fdiv 2) % 4096).toNat) := by
  have hr1 := resolve_register_num r1 h10 h11
  have hr2 := resolve_register_num r2 h20 h21
  refine ⟨?_, ?_, ?_⟩
  · intro h
    simp only [b_type, hr1, hr2]
    rw [if_pos h]
  · intro hlo hhi hodd
    simp only [b_type, hr1, hr2]
    rw [if_neg (by omega), if_pos (by omega)]
  · intro hlo hhi heven
    simp only [b_type, hr1, hr2]
    rw [if_neg (by omega), if_neg (by omega)]
    set N := c_uint32 (imm.fdiv 2) &&& 4095 with hNdef
    have hN : N = ((imm.fdiv 2) % 4096).toNat := by
      rw [hNdef, and_4095_eq, c_uint32_mod_4096]
    have hNlt : N < 4096 := by rw [hN]; omega
    have hrdle : r1.toNat ≤ 31 := by omega
    have hrsle : r2.toNat ≤ 31 := by omega
    have f12 : N >>> 11 &&& 1 = N / 2 ^ 11 % 2 := by
      rw [Nat.shiftRight_eq_div_pow, and_1_eq]
    have f11 : N >>> 10 &&& 1 = N / 2 ^ 10 % 2 := by
      rw [Nat.shiftRight_eq_div_pow, and_1_eq]
    have f105 : N >>> 4 &&& 63 = N / 2 ^ 4 % 64 := by
      rw [Nat.shiftRight_eq_div_pow, and_63_eq]
    have f41 : N &&& 15 = N % 16 := by
      rw [and_15_eq]
    rw [f12, f11, f105, f41]
    rw [lor_shl_eq_add _ 7 (by norm_num)]
    rw [lor_shl_eq_add _ 8 (by omega)]
    rw [lor_shl_eq_add _ 12 (by omega)]
    rw [lor_shl_eq_add _ 15 (by omega)]
    rw [lor_shl_eq_add _ 20 (by omega)]
    rw [lor_shl_eq_add _ 25 (by omega)]
    rw [lor_shl_eq_add _ 31 (by omega)]
    obtain ⟨bs, hbs, hword⟩ := pack32_ok
      (2 ^ 31 * (N / 2 ^ 11 % 2) + (2 ^ 25 * (N / 2 ^ 4 % 64) +
        (2 ^ 20 * r2.toNat + (2 ^ 15 * r1.toNat + (2 ^ 12 * 0 +
          (2 ^ 8 * (N % 16) + (2 ^ 7 * (N / 2 ^ 10 % 2) + 99)))))))
      (by omega)
    refine ⟨bs, hbs, ?_⟩
    rw [hword]
    rw [decodeB_fields (N / 2 ^ 10 % 2) (N % 16) (N / 2 ^ 4 % 64) (N / 2 ^ 11 % 2)
      r1.toNat r2.toNat (by omega) (by omega) (by omega) (by omega) (by omega) (by omega)]
    omega

/-- Witness for C6 at the claim's example immediates: 4096 (range
error), 3 (parity error), and 4094 (accepted; the reassembled stored
immediate is 4094 / 2 = 2047). -/
theorem b_type_accepts_even_in_range_witness :
    b_type (.num 1) (.num 2) 4096 99 0 = .error .immediateRange ∧
    b_type (.num 1) (.num 2) 3 99 0 = .error .immediateParity ∧
    (∃ bs, b_type (.num 1) (.num 2) 4094 99 0 = .ok bs ∧
      decodeBImm (wordOf bs) = 2047) := by
  refine ⟨?_, ?_, ?_⟩
  · exact (b_type_accepts_even_in_range 1 2 4096 (by decide) (by decide)
      (by decide) (by decide)).1 (Or.inr (by decide))
  · exact (b_type_accepts_even_in_range 1 2 3 (by decide) (by decide)
      (by decide) (by decide)).2.1 (by decide) (by decide) (by decide)
  · obtain ⟨bs, h1, h2⟩ := (b_type_accepts_even_in_range 1 2 4094 (by decide)
      (by decide) (by decide) (by decide)).2.2 (by decide) (by decide) (by decide)
    exact ⟨bs, h1, by rw [h2]; decide⟩

/-- Claim C10: the parity check of the B- and J-type encoders rejects
negative odd immediates as well as positive ones — `imm % 2` here is
Python's modulo (`Int.emod`), which is 1 for every odd integer,
negative or not — so any in-range odd immediate raises the parity
error (shown for BEQ and JAL). -/
theorem parity_check_rejects_negative_odd (imm : Int) (hodd : imm % 2 ≠ 0) :
    (-4096 ≤ imm → imm ≤ 4095 →
      b_type (.str "x1") (.str "x2") imm 99 0 = .error .immediateParity) ∧
    (-1048576 ≤ imm → imm ≤ 1048575 →
      j_type (.str "x1") imm 111 = .error .immediateParity) := by
  have hx1 : resolve_register (.str "x1") = .ok 1 := by rfl
  have hx2 : resolve_register (.str "x2") = .ok 2 := by rfl
  constructor
  · intro h1 h2
    simp only [b_type, hx1, hx2]
    rw [if_neg (by omega), if_pos (by omega)]
  · intro h1 h2
    simp only [j_type, hx1]
    rw [if_neg (by omega), if_pos (by omega)]

/-- Witness for C10 at the negative odd immediate -3. -/
theorem parity_check_rejects_negative_odd_witness :
    ((-3 : Int) % 2 ≠ 0) ∧
    b_type (.str "x1") (.str "x2") (-3) 99 0 = .error .immediateParity ∧
    j_type (.str "x1") (-3) 111 = .error .immediateParity :=
  ⟨by decide,
    (parity_check_rejects_negative_odd (-3) (by decide)).1 (by decide) (by decide),
    (parity_check_rejects_negative_odd (-3) (by decide)).2 (by decide) (by decide)⟩
